import Mathlib

/-!
Shallow embedding of `music_organizer` (src/main.rs) and proofs about it.

Strings are modelled as `List Char`; all operations used by the program
(the sanitizing regex, ASCII lower-casing, `starts_with`, `ends_with`,
`replace_range` on one-byte ranges) act on ASCII characters, where the
character-level model coincides with Rust's byte-level behaviour on UTF-8.
Paths are modelled as lists of components, matching `std::path::Path`
component-wise equality (`Path::join("")` leaves the component list
unchanged, since a trailing separator does not add a component).
-/

namespace MusicOrganizer

/-- The double-quote character, kept out of literal position for clarity. -/
def quoteChar : Char := Char.ofNat 34

/-- The backslash character. -/
def backslashChar : Char := Char.ofNat 92

/-- The newline character. -/
def nlChar : Char := Char.ofNat 10

/-- The character class of the sanitizing regex in main.rs line 491,
`[<>:"/\|?*]` (a Rust raw string, so the regex engine sees exactly these
bytes).  Inside the class `\|` is an escaped pipe; the class therefore
matches `<  >  :  "  /  |  ?  *` and does NOT match a backslash. -/
def forbiddenChars : List Char :=
  ['<', '>', ':', quoteChar, '/', '|', '?', '*']

/-- `RE.replace_all(str, "")`: every regex match (a single character of the
class) is removed. -/
def stripForbidden (s : List Char) : List Char :=
  s.filter (fun c => !(forbiddenChars.contains c))

/-- main.rs lines 497-499: `if s.starts_with('.') { s.replace_range(0..1, "_") }`
(`'.'` is one byte, so replacing the range `0..1` replaces the first character). -/
def replaceLeadingDot (s : List Char) : List Char :=
  if s.head? = some '.' then '_' :: s.tail else s

/-- main.rs lines 501-503: `if s.ends_with('.') { s.replace_range(s.len() - 1..s.len(), "_") }`. -/
def replaceTrailingDot (s : List Char) : List Char :=
  if s.getLast? = some '.' then s.dropLast ++ ['_'] else s

/-- `valid_os_string` from main.rs lines 494-506. -/
def valid_os_string (s : List Char) : List Char :=
  replaceTrailingDot (replaceLeadingDot (stripForbidden s))

/-! Helper lemmas about the sanitizer. -/

/-- `stripForbidden` leaves no character of the regex class behind. -/
theorem stripForbidden_clean (s : List Char) :
    ∀ c ∈ stripForbidden s, forbiddenChars.contains c = false := by
  intro c hc
  have h := List.of_mem_filter hc
  simpa using h

theorem stripForbidden_of_clean (s : List Char)
    (h : ∀ c ∈ s, forbiddenChars.contains c = false) :
    stripForbidden s = s := by
  apply List.filter_eq_self.mpr
  intro c hc
  rw [Bool.not_eq_true']
  exact h c hc

theorem replaceLeadingDot_subset (s : List Char) :
    ∀ c ∈ replaceLeadingDot s, c = '_' ∨ c ∈ s := by
  intro c hc
  unfold replaceLeadingDot at hc
  by_cases hh : s.head? = some '.'
  · rw [if_pos hh] at hc
    rcases List.mem_cons.mp hc with hc | hc
    · exact Or.inl hc
    · exact Or.inr (List.mem_of_mem_tail hc)
  · rw [if_neg hh] at hc
    exact Or.inr hc

theorem replaceTrailingDot_subset (s : List Char) :
    ∀ c ∈ replaceTrailingDot s, c = '_' ∨ c ∈ s := by
  intro c hc
  unfold replaceTrailingDot at hc
  by_cases hl : s.getLast? = some '.'
  · rw [if_pos hl] at hc
    rcases List.mem_append.mp hc with hc | hc
    · exact Or.inr (List.dropLast_subset s hc)
    · exact Or.inl (List.mem_singleton.mp hc)
  · rw [if_neg hl] at hc
    exact Or.inr hc

theorem replaceLeadingDot_clean (s : List Char)
    (h : ∀ c ∈ s, forbiddenChars.contains c = false) :
    ∀ c ∈ replaceLeadingDot s, forbiddenChars.contains c = false := by
  intro c hc
  rcases replaceLeadingDot_subset s c hc with rfl | hc
  · decide
  · exact h c hc

theorem replaceTrailingDot_clean (s : List Char)
    (h : ∀ c ∈ s, forbiddenChars.contains c = false) :
    ∀ c ∈ replaceTrailingDot s, forbiddenChars.contains c = false := by
  intro c hc
  rcases replaceTrailingDot_subset s c hc with rfl | hc
  · decide
  · exact h c hc

/-- After `replaceLeadingDot`, the head is never `'.'`. -/
theorem replaceLeadingDot_head (s : List Char) :
    (replaceLeadingDot s).head? ≠ some '.' := by
  unfold replaceLeadingDot
  by_cases hh : s.head? = some '.'
  · rw [if_pos hh]
    intro hcon
    exact absurd (Option.some.inj hcon) (by decide)
  · rw [if_neg hh]
    exact hh

/-- `replaceTrailingDot` does not put a `'.'` at the head if there was none. -/
theorem replaceTrailingDot_head (s : List Char) (h : s.head? ≠ some '.') :
    (replaceTrailingDot s).head? ≠ some '.' := by
  unfold replaceTrailingDot
  by_cases hl : s.getLast? = some '.'
  · rw [if_pos hl]
    cases s with
    | nil => exact absurd hl (Option.noConfusion)
    | cons a rest =>
      cases rest with
      | nil =>
        have he : ((a :: ([] : List Char)).dropLast ++ ['_']).head? = some '_' := rfl
        rw [he]
        decide
      | cons b t =>
        have he : ((a :: b :: t).dropLast ++ ['_']).head? = some a := rfl
        rw [he]
        exact h
  · rw [if_neg hl]
    exact h

/-- After `replaceTrailingDot`, the last character is never `'.'`. -/
theorem replaceTrailingDot_last (s : List Char) :
    (replaceTrailingDot s).getLast? ≠ some '.' := by
  unfold replaceTrailingDot
  by_cases hl : s.getLast? = some '.'
  · rw [if_pos hl, List.getLast?_concat]
    decide
  · rw [if_neg hl]
    exact hl

theorem replaceLeadingDot_of_head (s : List Char) (h : s.head? ≠ some '.') :
    replaceLeadingDot s = s := by
  unfold replaceLeadingDot
  rw [if_neg h]

theorem replaceTrailingDot_of_last (s : List Char) (h : s.getLast? ≠ some '.') :
    replaceTrailingDot s = s := by
  unfold replaceTrailingDot
  rw [if_neg h]

/-- Every character of the sanitizer's output avoids the regex class. -/
theorem valid_os_string_clean (s : List Char) :
    ∀ c ∈ valid_os_string s, forbiddenChars.contains c = false :=
  replaceTrailingDot_clean _ (replaceLeadingDot_clean _ (stripForbidden_clean s))

theorem valid_os_string_head (s : List Char) :
    (valid_os_string s).head? ≠ some '.' :=
  replaceTrailingDot_head _ (replaceLeadingDot_head _)

theorem valid_os_string_last (s : List Char) :
    (valid_os_string s).getLast? ≠ some '.' :=
  replaceTrailingDot_last _

/-- C5: The sanitizer is idempotent: for every string `s`,
`valid_os_string (valid_os_string s) = valid_os_string s`. -/
theorem valid_os_string_idempotent (s : List Char) :
    valid_os_string (valid_os_string s) = valid_os_string s := by
  have hclean := valid_os_string_clean s
  have h1 : stripForbidden (valid_os_string s) = valid_os_string s :=
    stripForbidden_of_clean _ hclean
  have h2 : replaceLeadingDot (valid_os_string s) = valid_os_string s :=
    replaceLeadingDot_of_head _ (valid_os_string_head s)
  have h3 : replaceTrailingDot (valid_os_string s) = valid_os_string s :=
    replaceTrailingDot_of_last _ (valid_os_string_last s)
  show replaceTrailingDot (replaceLeadingDot (stripForbidden (valid_os_string s)))
      = valid_os_string s
  rw [h1, h2, h3]

/-- C2: the regex class `[<>:"/\|?*]` does not contain the backslash (the
`\|` escapes the pipe), so a backslash passes through the sanitizer
unchanged, contradicting the claim that all nine characters
`< > : " / \ | ? *` are stripped. -/
theorem valid_os_string_keeps_backslash :
    valid_os_string [backslashChar] = [backslashChar] ∧
      (valid_os_string [backslashChar]).contains backslashChar = true := by
  constructor <;> decide

/-! ## ASCII case handling -/

/-- Rust `char::to_ascii_lowercase`: maps `A`-`Z` to `a`-`z`, leaves every
other character unchanged. -/
def to_ascii_lowercase (c : Char) : Char :=
  if 'A' ≤ c ∧ c ≤ 'Z' then Char.ofNat (c.toNat + 32) else c

/-- Rust `str::to_ascii_lowercase`, character by character (ASCII bytes are
exactly the one-byte characters, so byte-wise and character-wise lowering
agree on UTF-8). -/
def lowerStr (s : List Char) : List Char :=
  s.map to_ascii_lowercase

/-- Rust `str::eq_ignore_ascii_case`: same length, and the characters are
pairwise equal after ASCII lowering. -/
def eq_ignore_ascii_case : List Char → List Char → Bool
  | [], [] => true
  | x :: xs, y :: ys =>
      (to_ascii_lowercase x == to_ascii_lowercase y) && eq_ignore_ascii_case xs ys
  | _, _ => false

theorem eq_ignore_ascii_case_iff (a b : List Char) :
    eq_ignore_ascii_case a b = true ↔ lowerStr a = lowerStr b := by
  induction a generalizing b with
  | nil => cases b <;> simp [eq_ignore_ascii_case, lowerStr]
  | cons x xs ih =>
    cases b with
    | nil => simp [eq_ignore_ascii_case, lowerStr]
    | cons y ys =>
      simp [eq_ignore_ascii_case, lowerStr, Bool.and_eq_true, beq_iff_eq, ih ys]

/-! ## Data model (main.rs lines 20-38) -/

/-- `Album` from main.rs: a name and the indices of its songs in the global
song list. -/
structure Album where
  name : List Char
  songs : List Nat
deriving DecidableEq

/-- `Artist` from main.rs: a name and its album list. -/
structure Artist where
  name : List Char
  albums : List Album
deriving DecidableEq

/-- `Song` from main.rs: the per-track artist tag, title, track number and
the current file path (as path components). -/
structure Song where
  track : Nat
  artist : List Char
  title : List Char
  current_file : List (List Char)
deriving DecidableEq

/-- `Metadata` from main.rs lines 40-47. -/
structure Metadata where
  track : Nat
  artist : List Char
  album_artist : List Char
  album : List Char
  title : List Char
deriving DecidableEq

/-! ## Conflict detection (main.rs lines 256-258) -/

/-- The condition under which the double loop at main.rs lines 256-258 flags
positions `i` and `j` of the artist list as a conflicting pair:
`i != j && ar1.name.eq_ignore_ascii_case(&ar2.name)`. -/
def conflicting (artists : List Artist) (i j : Nat) : Bool :=
  match artists.get? i, artists.get? j with
  | some a1, some a2 => (i != j) && eq_ignore_ascii_case a1.name a2.name
  | _, _ => false

/-- C6: two artists at distinct positions are flagged as a conflicting pair
exactly when their names are equal after ASCII lower-casing both. -/
theorem conflicting_iff_lower_eq (artists : List Artist) (i j : Nat) (a1 a2 : Artist)
    (h1 : artists.get? i = some a1) (h2 : artists.get? j = some a2) :
    conflicting artists i j = true ↔ (i ≠ j ∧ lowerStr a1.name = lowerStr a2.name) := by
  unfold conflicting
  rw [h1, h2]
  simp [Bool.and_eq_true, eq_ignore_ascii_case_iff]

/-- Witness for C6: `"Prince"` and `"PRINCE"` are flagged as a conflicting
pair (and, directly from the definitions, `"Prince"` / `"Princess"` are not). -/
theorem conflicting_iff_lower_eq_witness :
    conflicting [⟨"Prince".toList, []⟩, ⟨"PRINCE".toList, []⟩] 0 1 = true ∧
      conflicting [⟨"Prince".toList, []⟩, ⟨"Princess".toList, []⟩] 0 1 = false :=
  ⟨(conflicting_iff_lower_eq [⟨"Prince".toList, []⟩, ⟨"PRINCE".toList, []⟩] 0 1
      ⟨"Prince".toList, []⟩ ⟨"PRINCE".toList, []⟩ rfl rfl).mpr (by decide),
   by decide⟩

/-! ## Conflict resolution (main.rs lines 260-288) -/

/-- One round of the conflict-resolution menu for a flagged pair, main.rs
lines 267-288.  `choice` is the index returned by `input_options_loop` for
`["don't do anything", "merge using first", "merge using second",
"enter new name"]`.  In the source, arm `0` is `continue`, arm `1` only
executes `println!("update first")`, arm `2` only `println!("update second")`,
and arm `3` runs the name-entry dialogue whose accepting arm only executes
`println!("rename")`; no arm modifies the artist list (which is borrowed
immutably by the surrounding loops).  The returned pair is the artist list
after the round together with the status line printed by the chosen arm. -/
def resolveChoice (artists : List Artist) (choice : Nat) : List Artist × List String :=
  match choice with
  | 0 => (artists, [])
  | 1 => (artists, ["update first"])
  | 2 => (artists, ["update second"])
  | 3 => (artists, ["rename"])
  | _ => (artists, [])

/-- The conflicting pair used to exhibit the unimplemented merge. -/
def conflictPair : List Artist :=
  [⟨"Prince".toList, [⟨"A".toList, [0]⟩]⟩,
   ⟨"PRINCE".toList, [⟨"A".toList, [1]⟩]⟩]

/-- C1: choosing "merge using first" on the conflicting pair
`Prince`/`PRINCE` (each holding an album named `A`) leaves the artist list
completely unchanged — two artists remain and no Album lists are combined —
instead of producing the single merged artist the spec describes. -/
theorem merge_using_first_changes_nothing :
    (resolveChoice conflictPair 1).1 = conflictPair ∧
      (resolveChoice conflictPair 1).1.length = 2 ∧
      (resolveChoice conflictPair 1).1 ≠
        [⟨"Prince".toList, [⟨"A".toList, [0, 1]⟩]⟩] := by
  refine ⟨rfl, rfl, ?_⟩
  decide

/-! ## Indexer grouping (main.rs lines 181-252) -/

/-- The inner album scan of the grouping loop (main.rs lines 230-240):
linear-scan the artist's albums for an exact name match and push the song
index there, otherwise append a new album at the end. -/
def insertAlbum (albums : List Album) (albumName : List Char) (si : Nat) : List Album :=
  match albums with
  | [] => [⟨albumName, [si]⟩]
  | al :: rest =>
    if al.name = albumName then ⟨al.name, al.songs ++ [si]⟩ :: rest
    else al :: insertAlbum rest albumName si

/-- The artist scan of the grouping loop (main.rs lines 216-251): exact name
match inserts into that artist's albums, otherwise a new artist with a new
album is appended at the end (the `artists.is_empty()` special case at line
216 coincides with the empty-scan fall-through). -/
def insertArtist (artists : List Artist) (artistName albumName : List Char) (si : Nat) :
    List Artist :=
  match artists with
  | [] => [⟨artistName, [⟨albumName, [si]⟩]⟩]
  | ar :: rest =>
    if ar.name = artistName then ⟨ar.name, insertAlbum ar.albums albumName si⟩ :: rest
    else ar :: insertArtist rest artistName albumName si

/-- The three collections built by the indexing loop: `artists`, `unknown`,
`songs` (main.rs lines 177-179). -/
structure IndexState where
  artists : List Artist
  unknown : List Nat
  songs : List Song
deriving DecidableEq

/-- One iteration of the `'songs` loop (main.rs lines 181-252) after
`Metadata::read_from` produced `m` for the file at `path`: the song is
appended to the song list, then grouped under the album-artist tag if
non-empty, else under the per-track artist tag if non-empty, else its
index goes to the `unknown` bucket. -/
def indexSong (st : IndexState) (m : Metadata) (path : List (List Char)) : IndexState :=
  let si := st.songs.length
  let songs2 := st.songs ++ [⟨m.track, m.artist, m.title, path⟩]
  if m.album_artist ≠ [] then
    ⟨insertArtist st.artists m.album_artist m.album si, st.unknown, songs2⟩
  else if m.artist ≠ [] then
    ⟨insertArtist st.artists m.artist m.album si, st.unknown, songs2⟩
  else
    ⟨st.artists, st.unknown ++ [si], songs2⟩

def indexStep (st : IndexState) (f : Metadata × List (List Char)) : IndexState :=
  indexSong st f.1 f.2

/-- Indexing a sequence of files, starting from the empty collections. -/
def indexAll (files : List (Metadata × List (List Char))) : IndexState :=
  files.foldl indexStep ⟨[], [], []⟩

/-- How often song index `i` occurs across the albums of a list of albums. -/
def albumsCount (albums : List Album) (i : Nat) : Nat :=
  (albums.map (fun al => al.songs.count i)).sum

/-- How often song index `i` occurs across the whole artist hierarchy. -/
def artistsCount (artists : List Artist) (i : Nat) : Nat :=
  (artists.map (fun ar => albumsCount ar.albums i)).sum

/-- How often song index `i` occurs anywhere in the indexed structure:
in the unknown bucket or in any album's song list. -/
def occurrences (st : IndexState) (i : Nat) : Nat :=
  st.unknown.count i + artistsCount st.artists i

theorem count_one_new (si i : Nat) : ([si] : List Nat).count i = if si = i then 1 else 0 := by
  by_cases h : si = i
  · simp [h]
  · rw [if_neg h, List.count_eq_zero]
    simp
    omega

theorem insertAlbum_count (albums : List Album) (nm : List Char) (si i : Nat) :
    albumsCount (insertAlbum albums nm si) i
      = albumsCount albums i + (if si = i then 1 else 0) := by
  induction albums with
  | nil =>
    simp only [insertAlbum, albumsCount, List.map_cons, List.map_nil, List.sum_cons,
      List.sum_nil, count_one_new]
    omega
  | cons al rest ih =>
    unfold insertAlbum
    by_cases h : al.name = nm
    · rw [if_pos h]
      simp only [albumsCount, List.map_cons, List.sum_cons, List.count_append, count_one_new]
      omega
    · rw [if_neg h]
      simp only [albumsCount, List.map_cons, List.sum_cons]
      have ih2 := ih
      simp only [albumsCount] at ih2
      rw [ih2]
      omega

theorem insertArtist_count (artists : List Artist) (an nm : List Char) (si i : Nat) :
    artistsCount (insertArtist artists an nm si) i
      = artistsCount artists i + (if si = i then 1 else 0) := by
  induction artists with
  | nil =>
    simp only [insertArtist, artistsCount, List.map_cons, List.map_nil, List.sum_cons,
      List.sum_nil, albumsCount, count_one_new]
    omega
  | cons ar rest ih =>
    unfold insertArtist
    by_cases h : ar.name = an
    · rw [if_pos h]
      simp only [artistsCount, List.map_cons, List.sum_cons, insertAlbum_count]
      omega
    · rw [if_neg h]
      simp only [artistsCount, List.map_cons, List.sum_cons]
      have ih2 := ih
      simp only [artistsCount] at ih2
      rw [ih2]
      omega

theorem indexSong_occ (st : IndexState) (m : Metadata) (p : List (List Char)) (i : Nat) :
    occurrences (indexSong st m p) i
      = occurrences st i + (if st.songs.length = i then 1 else 0) := by
  unfold indexSong occurrences
  by_cases h1 : m.album_artist ≠ []
  · rw [if_pos h1]
    simp only [insertArtist_count]
    omega
  · rw [if_neg h1]
    by_cases h2 : m.artist ≠ []
    · rw [if_pos h2]
      simp only [insertArtist_count]
      omega
    · rw [if_neg h2]
      simp only [List.count_append, count_one_new]
      omega

theorem indexSong_songs_length (st : IndexState) (m : Metadata) (p : List (List Char)) :
    (indexSong st m p).songs.length = st.songs.length + 1 := by
  unfold indexSong
  by_cases h1 : m.album_artist ≠ []
  · rw [if_pos h1]
    simp
  · rw [if_neg h1]
    by_cases h2 : m.artist ≠ []
    · rw [if_pos h2]
      simp
    · rw [if_neg h2]
      simp

theorem partition_invariant_aux (files : List (Metadata × List (List Char)))
    (st : IndexState)
    (h : ∀ i, occurrences st i = if i < st.songs.length then 1 else 0) :
    ∀ i, occurrences (files.foldl indexStep st) i
      = if i < (files.foldl indexStep st).songs.length then 1 else 0 := by
  induction files generalizing st with
  | nil => exact h
  | cons f rest ih =>
    simp only [List.foldl_cons]
    apply ih
    intro i
    show occurrences (indexSong st f.1 f.2) i
      = if i < (indexSong st f.1 f.2).songs.length then 1 else 0
    rw [indexSong_occ, h i, indexSong_songs_length]
    split_ifs <;> omega

/-- C4: after indexing any sequence of files, every song index `i` below the
song-list length occurs exactly once in the whole structure (unknown bucket
plus all album song lists summed), and any other index occurs nowhere —
so each indexed song sits in exactly one album of exactly one artist or in
the unknown bucket, never in both and never twice. -/
theorem partition_invariant (files : List (Metadata × List (List Char))) (i : Nat) :
    occurrences (indexAll files) i
      = if i < (indexAll files).songs.length then 1 else 0 := by
  apply partition_invariant_aux
  intro j
  simp [occurrences, artistsCount, albumsCount]

/-! ## Paths and extensions -/

/-- `Path::join` at the component level.  Joining the empty string adds no
component (Rust renders a trailing separator, and `Path` equality and
`exists()` are component-wise, so the joined path denotes the same
directory). -/
def pathJoin (p : List (List Char)) (c : List Char) : List (List Char) :=
  if c = [] then p else p ++ [c]

/-- The characters after the last `'.'` of a file name, if any. -/
def afterLastDot : List Char → Option (List Char)
  | [] => none
  | c :: rest =>
    match afterLastDot rest with
    | some e => some e
    | none => if c = '.' then some rest else none

/-- Rust `Path::extension` on a file name: the part after the last `'.'`;
`none` when there is no `'.'`, or when the only `'.'` is the leading one
(hidden-file names like `.bashrc` have no extension). -/
def extension? (name : List Char) : Option (List Char) :=
  match name with
  | [] => none
  | c :: rest => if c = '.' then afterLastDot rest else afterLastDot (c :: rest)

/-! ## Directory scan (main.rs lines 181-191) -/

def MUSIC_FILE_EXTENSIONS : List (List Char) :=
  ["m4a".toList, "mp3".toList, "m4b".toList, "m4p".toList, "m4v".toList]

/-- `is_music_extension` from main.rs lines 383-392. -/
def is_music_extension (s : List Char) : Bool :=
  MUSIC_FILE_EXTENSIONS.any (fun e => s == e)

/-- A walked directory entry: its file name and whether it is a regular
file. -/
structure DirEntry where
  fileName : List Char
  isFile : Bool

inductive ScanResult
  | excluded
  | skippedExtension
  | indexed
deriving DecidableEq

def unwrapPanicMsg : List Char :=
  "called unwrap on a None value".toList

/-- The per-entry decision of the indexing walk, main.rs lines 181-191:
`filter_entry` drops hidden names (leading `'.'`), the `filter` drops
non-regular files, and the surviving entries hit
`p.extension().unwrap()` — which panics (`Except.error`) when the file
name has no extension — before the supported-extension test. -/
def scanEntry (e : DirEntry) : Except (List Char) ScanResult :=
  if e.fileName.head? = some '.' then .ok .excluded
  else if e.isFile = false then .ok .excluded
  else
    match extension? e.fileName with
    | none => .error unwrapPanicMsg
    | some ext => .ok (if is_music_extension ext then .indexed else .skippedExtension)

/-- C8: a regular, non-hidden file without any extension (here `README`)
reaches `p.extension().unwrap()` at main.rs line 191 and panics, aborting
the scan instead of being skipped. -/
theorem scan_panics_on_extensionless_file :
    ("README".toList).head? ≠ some '.'
    ∧ extension? ("README".toList) = none
    ∧ scanEntry ⟨"README".toList, true⟩ = Except.error unwrapPanicMsg := by
  refine ⟨by decide, by decide, rfl⟩

/-! ## Path planner and relocator (main.rs lines 310-378) -/

/-- The single test at main.rs line 332:
`al.name.is_empty() || al.name.to_ascii_lowercase() == format!("{} - single", &song.title.to_ascii_lowercase())`. -/
def is_single (albumName title : List Char) : Bool :=
  albumName.isEmpty || (lowerStr albumName == lowerStr title ++ (" - single".toList))

/-- `format!("{:02}", track)`: decimal digits, zero-padded on the left to a
minimum width of two. -/
def format02 (n : Nat) : List Char :=
  if n < 10 then '0' :: Nat.toDigits 10 n else Nat.toDigits 10 n

/-- The file name built for a single, main.rs lines 333-339:
`sanitize(artist) ++ " - " ++ sanitize(title) ++ "." ++ extension`. -/
def singleFileName (song : Song) (ext : List Char) : List Char :=
  valid_os_string song.artist ++ (" - ".toList) ++ valid_os_string song.title
    ++ ['.'] ++ ext

/-- The file name built for an album track, main.rs lines 345-352:
`format!("{:02} - ", track) ++ sanitize(artist) ++ " - " ++ sanitize(title) ++ "." ++ extension`. -/
def albumFileName (song : Song) (ext : List Char) : List Char :=
  format02 song.track ++ (" - ".toList) ++ valid_os_string song.artist
    ++ (" - ".toList) ++ valid_os_string song.title ++ ['.'] ++ ext

/-- `song.current_file.extension().unwrap()` (main.rs line 330).  Songs
reaching the write loop were indexed, so their file names always carry a
supported music extension; the unwrap is rendered total with `getD`. -/
def songExt (song : Song) : List Char :=
  ((song.current_file.getLast?).bind extension?).getD []

/-- A filesystem effect of the write loop: ensuring a directory exists
(`if !dir.exists() { create_dir(dir) }`), or transferring a file
(`mv_or_cp`, which skips when source equals destination). -/
inductive FsOp
  | ensureDir (p : List (List Char))
  | transfer (src dst : List (List Char))
deriving DecidableEq

/-- The destination chosen for one song of an album, main.rs lines 328-357:
singles go directly into the artist directory under the artist-title name,
every other track into the album directory under the track-prefixed name. -/
def songOp (ar_dir al_dir : List (List Char)) (alName : List Char) (song : Song) : FsOp :=
  let ext := songExt song
  if is_single alName song.title then
    .transfer song.current_file (pathJoin ar_dir (singleFileName song ext))
  else
    .transfer song.current_file (pathJoin al_dir (albumFileName song ext))

/-- The per-album body of the write loop, main.rs lines 320-360: the album
directory is ensured unconditionally — before and regardless of the
single test — then each song is transferred. -/
def relocateAlbum (songs : List Song) (ar_dir : List (List Char)) (al : Album) : List FsOp :=
  let al_dir := pathJoin ar_dir (valid_os_string al.name)
  FsOp.ensureDir al_dir ::
    al.songs.map (fun si => songOp ar_dir al_dir al.name (songs.getD si ⟨0, [], [], []⟩))

/-- The per-artist body of the write loop, main.rs lines 312-361. -/
def relocateArtist (songs : List Song) (output_dir : List (List Char)) (ar : Artist) :
    List FsOp :=
  let ar_dir := pathJoin output_dir (valid_os_string ar.name)
  FsOp.ensureDir ar_dir :: (ar.albums.map (relocateAlbum songs ar_dir)).flatten

/-- The single-release condition in the words of the spec: the album name is
empty, or its lower-cased form equals the lower-cased song title followed
by `" - single"`. -/
def specSingleRelease (albumName title : List Char) : Prop :=
  albumName = [] ∨ lowerStr albumName = lowerStr title ++ (" - single".toList)

/-- The songs of the worked examples: `"Alone"` by `"X"`, track 3, stored at
`music/a.m4a`. -/
def songsEx : List Song :=
  [⟨3, "X".toList, "Alone".toList, ["music".toList, "a.m4a".toList]⟩]

def srcEx : List (List Char) := ["music".toList, "a.m4a".toList]

/-- C3: the planner's single test agrees with the spec's condition, and the
three worked examples come out as specified: empty album name and album
name `"Alone - Single"` both plan `output/X/X - Alone.m4a` directly in the
artist directory, while album `"Greatest Hits"` with track 3 plans
`output/X/Greatest Hits/03 - X - Alone.m4a`. -/
theorem single_vs_album_classification :
    (∀ a t, is_single a t = true ↔ specSingleRelease a t)
    ∧ relocateArtist songsEx ["output".toList] ⟨"X".toList, [⟨[], [0]⟩]⟩
      = [FsOp.ensureDir ["output".toList, "X".toList],
         FsOp.ensureDir ["output".toList, "X".toList],
         FsOp.transfer srcEx ["output".toList, "X".toList, "X - Alone.m4a".toList]]
    ∧ relocateArtist songsEx ["output".toList] ⟨"X".toList, [⟨"Alone - Single".toList, [0]⟩]⟩
      = [FsOp.ensureDir ["output".toList, "X".toList],
         FsOp.ensureDir ["output".toList, "X".toList, "Alone - Single".toList],
         FsOp.transfer srcEx ["output".toList, "X".toList, "X - Alone.m4a".toList]]
    ∧ relocateArtist songsEx ["output".toList] ⟨"X".toList, [⟨"Greatest Hits".toList, [0]⟩]⟩
      = [FsOp.ensureDir ["output".toList, "X".toList],
         FsOp.ensureDir ["output".toList, "X".toList, "Greatest Hits".toList],
         FsOp.transfer srcEx
           ["output".toList, "X".toList, "Greatest Hits".toList,
            "03 - X - Alone.m4a".toList]] := by
  refine ⟨?_, by decide, by decide, by decide⟩
  intro a t
  simp [is_single, specSingleRelease, List.isEmpty_iff, Bool.or_eq_true, beq_iff_eq]

/-- C7 counterexample: the album `"Alone - Single"` of artist `"X"` is
classified as a single, yet the write loop still ensures (creates when
missing) its album directory `output/X/Alone - Single`, because the
directory is created at main.rs lines 321-326, before the single test at
line 332. -/
theorem single_album_dir_still_created :
    is_single ("Alone - Single".toList) ("Alone".toList) = true
    ∧ FsOp.ensureDir ["output".toList, "X".toList, "Alone - Single".toList]
        ∈ relocateArtist songsEx ["output".toList]
            ⟨"X".toList, [⟨"Alone - Single".toList, [0]⟩]⟩ := by
  refine ⟨by decide, by decide⟩

/-- C7 amended: the write loop ensures the album directory
`artist_dir/sanitize(album.name)` for every album of every artist,
regardless of whether the album is treated as a single (only an album whose
sanitized name is empty adds no component, so only then no separate
directory is ensured). -/
theorem album_dir_always_ensured (songs : List Song) (out : List (List Char))
    (ar : Artist) (al : Album) (h : al ∈ ar.albums) :
    FsOp.ensureDir (pathJoin (pathJoin out (valid_os_string ar.name))
        (valid_os_string al.name))
      ∈ relocateArtist songs out ar := by
  unfold relocateArtist
  apply List.mem_cons_of_mem
  apply List.mem_flatten.mpr
  refine ⟨relocateAlbum songs (pathJoin out (valid_os_string ar.name)) al, ?_, ?_⟩
  · exact List.mem_map.mpr ⟨al, h, rfl⟩
  · unfold relocateAlbum
    exact List.mem_cons_self _ _

/-- Witness for the amended C7 at a concrete single album. -/
theorem album_dir_always_ensured_witness :
    FsOp.ensureDir (pathJoin (pathJoin ["output".toList]
        (valid_os_string ("X".toList)))
        (valid_os_string ("Alone - Single".toList)))
      ∈ relocateArtist songsEx ["output".toList]
          ⟨"X".toList, [⟨"Alone - Single".toList, [0]⟩]⟩ :=
  album_dir_always_ensured songsEx ["output".toList]
    ⟨"X".toList, [⟨"Alone - Single".toList, [0]⟩]⟩
    ⟨"Alone - Single".toList, [0]⟩ (List.mem_singleton.mpr rfl)

/-- The metadata of C10's scenario: per-track artist tag empty, album-artist
tag `"AB"`, empty album name, title `"T"`. -/
def mEx : Metadata := ⟨0, [], "AB".toList, [], "T".toList⟩

def pEx : List (List Char) := ["music".toList, "t.m4a".toList]

/-- C10: the song stored by the indexing loop always carries the per-track
artist tag (`m.artist`), not the artist used for grouping; concretely, a
file with empty per-track artist but album-artist `"AB"` is grouped under
`"AB"`, while its planned file name is `" - T.m4a"` — an empty artist
segment before the `" - "` separator. -/
theorem filename_artist_from_song_tag :
    (∀ st m p, (indexSong st m p).songs = st.songs ++ [⟨m.track, m.artist, m.title, p⟩])
    ∧ (indexAll [(mEx, pEx)]).artists = [⟨"AB".toList, [⟨[], [0]⟩]⟩]
    ∧ relocateArtist (indexAll [(mEx, pEx)]).songs ["output".toList]
        ⟨"AB".toList, [⟨[], [0]⟩]⟩
      = [FsOp.ensureDir ["output".toList, "AB".toList],
         FsOp.ensureDir ["output".toList, "AB".toList],
         FsOp.transfer pEx ["output".toList, "AB".toList, " - T.m4a".toList]]
    ∧ (" - T.m4a".toList).take 3 = " - ".toList := by
  refine ⟨?_, by decide, by decide, by decide⟩
  intro st m p
  unfold indexSong
  by_cases h1 : m.album_artist ≠ []
  · rw [if_pos h1]
  · rw [if_neg h1]
    by_cases h2 : m.artist ≠ []
    · rw [if_pos h2]
    · rw [if_neg h2]

/-! ## Interactive menu (main.rs lines 425-445) -/

def isAsciiDigit (c : Char) : Bool :=
  decide ('0' ≤ c ∧ c ≤ '9')

def digitsVal (s : List Char) : Nat :=
  s.foldl (fun n c => n * 10 + (c.toNat - '0'.toNat)) 0

/-- `usize::from_str`: an optional leading `'+'` followed by at least one
ASCII digit (overflow, irrelevant at menu sizes, is not modelled). -/
def parse_usize (s : List Char) : Option Nat :=
  let t := if s.head? = some '+' then s.tail else s
  if t ≠ [] ∧ t.all isAsciiDigit then some (digitsVal t) else none

/-- `input.trim_matches('\n')`: strip newlines from both ends. -/
def trimNewlines (s : List Char) : List Char :=
  ((s.dropWhile (fun c => c == nlChar)).reverse.dropWhile (fun c => c == nlChar)).reverse

/-- `input_options_loop` from main.rs lines 425-445, driven by a script of
input lines.  The `input` buffer is allocated once outside the `loop` and
`read_line` appends each line (plus its newline) to it without clearing;
the parse is attempted on the newline-trimmed whole buffer.  `none` means
the script is exhausted with the loop still re-prompting. -/
def input_options_loop (numOptions : Nat) :
    List (List Char) → List Char → Option Nat
  | [], _ => none
  | line :: rest, buf =>
    let buf2 := buf ++ line ++ [nlChar]
    match parse_usize (trimNewlines buf2) with
    | some i =>
      if i < numOptions then some i
      else input_options_loop numOptions rest buf2
    | none => input_options_loop numOptions rest buf2

/-- C9: on the four-option conflict menu, the selection `2` entered as the
first line is accepted; but after one invalid line (`x`, or the
out-of-range `9`), the never-cleared input buffer holds the old line too,
so the subsequent valid selection `2` can no longer parse and the menu
re-prompts forever. -/
theorem invalid_input_poisons_menu :
    input_options_loop 4 ["2".toList] [] = some 2
    ∧ input_options_loop 4 ["x".toList, "2".toList] [] = none
    ∧ input_options_loop 4 ["9".toList, "2".toList] [] = none := by
  refine ⟨by decide, by decide, by decide⟩

end MusicOrganizer
